import Mathlib

/-!
Verification development for the Accord interview-workflow application
(`app.py`).  The Flask routes are embedded as pure Lean functions over an
explicit store; SQLAlchemy rows become structures, the database session
becomes explicit state passing, and each route returns the post store
together with the message it would flash.  JSON-encoded sub-record
payloads are kept as strings and decoded by an executable JSON reader
mirroring `json.loads`.
-/

/-! ## String helpers

Python's `str.strip`, `str.lower`, `int(...)` and `re.sub(r'\D','',...)`
are modelled on the character list of the string so that every
definition evaluates inside the kernel. -/

/-- ASCII whitespace recognizer used by the trim model (`str.strip`). -/
def isWSChar (c : Char) : Bool := c = ' ' ∨ c = '\t' ∨ c = '\n' ∨ c = '\r'

/-- Characters of a string with leading and trailing whitespace removed. -/
def trimChars (l : List Char) : List Char :=
  ((l.dropWhile isWSChar).reverse.dropWhile isWSChar).reverse

/-- Model of Python `str.strip()`. -/
def strTrim (s : String) : String := String.mk (trimChars s.data)

/-- ASCII lower-casing of one character. -/
def lowerChar (c : Char) : Char :=
  if 65 ≤ c.toNat ∧ c.toNat ≤ 90 then Char.ofNat (c.toNat + 32) else c

/-- Model of Python `str.lower()` (ASCII range). -/
def strLower (s : String) : String := String.mk (s.data.map lowerChar)

/-- Numeric value of a digit string. -/
def digitsVal (l : List Char) : Nat := l.foldl (fun acc c => acc * 10 + (c.toNat - 48)) 0

/-- Model of Python `int(s)` on the digit strings produced by the HOD
select form; non-numeric input makes `int` raise, modelled as `none`. -/
def strToNat (s : String) : Option Nat :=
  if s.data ≠ [] ∧ s.data.all Char.isDigit then some (digitsVal s.data) else none

/-- Model of `re.sub(r'\D', '', s.strip())`: keep only the digits. -/
def normalizeContact (s : String) : String :=
  String.mk ((strTrim s).data.filter Char.isDigit)

/-! ## Data model (`User` and `Application` rows) -/

/-- The `role` column of `User` (strings `'HR'`, `'HOD'`, `'UnitHead'`). -/
inductive Role where
  | HR
  | HOD
  | UnitHead
deriving DecidableEq, Repr

/-- A row of the `User` table. -/
structure User where
  id : Nat
  name : String
  email : String
  password_hash : String
  role : Role
  is_active : Bool
deriving DecidableEq, Repr

/-- A row of the `Application` table.  The three `*_json` columns hold the
raw JSON text exactly as the table does; `applied_at` is an abstract
timestamp. -/
structure Application where
  id : Nat
  name : String
  address : String
  contact : String
  email : Option String
  academic_json : String
  professional_json : String
  family_json : String
  position_applied : Option String
  department : String
  area_of_interest : Option String
  current_salary : Option String
  expected_salary : Option String
  notice_period : Option String
  resume_filename : Option String
  other_details : Option String
  reference_type : Option String
  reference_name : Option String
  status : String
  assigned_hod_id : Option Nat
  applied_at : Nat
deriving DecidableEq, Repr

/-- The database: both tables plus the autoincrement counters of their
primary keys and the current clock (`datetime.utcnow`). -/
structure Store where
  users : List User
  apps : List Application
  nextUserId : Nat
  nextAppId : Nat
  now : Nat
deriving DecidableEq, Repr

/-- Primary-key and uniqueness facts guaranteed by the schema: ids are
below the autoincrement counters and are pairwise distinct. -/
def Store.WF (st : Store) : Prop :=
  (∀ u ∈ st.users, u.id < st.nextUserId) ∧
  (∀ a ∈ st.apps, a.id < st.nextAppId) ∧
  (st.users.map (fun u => u.id)).Nodup ∧
  (st.apps.map (fun a => a.id)).Nodup

instance (st : Store) : Decidable st.WF := by
  unfold Store.WF; infer_instance

/-- `Application.query.get(app_id)`: lookup by primary key. -/
def getApp (st : Store) (appId : Nat) : Option Application :=
  st.apps.find? (fun a => a.id == appId)

/-- `User.query.get(user_id)`: lookup by primary key. -/
def getUser (st : Store) (userId : Nat) : Option User :=
  st.users.find? (fun u => u.id == userId)

/-! ## Credential hashing

Modelled from the spec: the credential-hashing collaborator of §6
(`werkzeug`'s `generate_password_hash` / `check_password_hash` is not
part of this repository).  The opaque hash is modelled as a tagged copy
of the password, so `verify(p, hash(q))` holds exactly when `p = q`. -/

/-- `generate_password_hash` model. -/
def hashPassword (pw : String) : String := "pbkdf2$" ++ pw

/-- `check_password_hash` model (`User.check_password`). -/
def checkPassword (pw : String) (h : String) : Bool := hashPassword pw == h

/-! ## Account operations (`login`, `register`, `hr_approve_hod`) -/

/-- Outcome of the `login` route. -/
inductive LoginResult where
  | invalidCredentials
  | pendingApproval
  | ok (userId : Nat) (role : Role)
deriving DecidableEq, Repr

/-- The `login` route (POST branch).  The email is stripped and
lower-cased, the password stripped; a missing user or hash mismatch
flashes "Invalid credentials"; an HOD with `is_active = False` flashes
"HOD account pending HR approval"; otherwise the session is established
for the user. -/
def login (st : Store) (emailRaw pwRaw : String) : LoginResult :=
  let email := strLower (strTrim emailRaw)
  let password := strTrim pwRaw
  match st.users.find? (fun u => u.email == email) with
  | none => .invalidCredentials
  | some u =>
    if ¬ checkPassword password u.password_hash then .invalidCredentials
    else if u.role = .HOD ∧ u.is_active = false then .pendingApproval
    else .ok u.id u.role

/-- Outcome of the `register` route. -/
inductive RegMsg where
  | missingFields
  | emailTaken
  | registered (userId : Nat)
deriving DecidableEq, Repr

/-- The `User` row inserted by a successful registration: `role='HOD'`,
`is_active=False`, stripped name, stripped lower-cased email, hashed
stripped password. -/
def freshHOD (st : Store) (nameRaw emailRaw pwRaw : String) : User :=
  { id := st.nextUserId, name := strTrim nameRaw,
    email := strLower (strTrim emailRaw),
    password_hash := hashPassword (strTrim pwRaw), role := .HOD, is_active := false }

/-- The `register` route (HOD self-registration): requires a non-empty
email and password, rejects an already-registered email, and inserts a
new `User` with `role='HOD'` and `is_active=False`. -/
def register (st : Store) (nameRaw emailRaw pwRaw : String) : Store × RegMsg :=
  let email := strLower (strTrim emailRaw)
  let password := strTrim pwRaw
  if email = "" ∨ password = "" then (st, .missingFields)
  else if st.users.any (fun u => u.email == email) then (st, .emailTaken)
  else
    let u : User := freshHOD st nameRaw emailRaw pwRaw
    ({ st with users := st.users ++ [u], nextUserId := st.nextUserId + 1 }, .registered u.id)

/-- Outcome of the `hr_approve_hod` route. -/
inductive ApproveMsg where
  | accessDenied
  | notFound
  | approved
deriving DecidableEq, Repr

/-- The `hr_approve_hod` route: the `login_required(role='HR')` gate,
then lookup of the HOD (flashing "HOD not found" when the id is absent
or the row is not an HOD), then `is_active = True`. -/
def hr_approve_hod (st : Store) (callerRole : Role) (hodId : Nat) : Store × ApproveMsg :=
  if callerRole ≠ .HR then (st, .accessDenied)
  else match getUser st hodId with
    | none => (st, .notFound)
    | some hod =>
      if hod.role ≠ .HOD then (st, .notFound)
      else
        ({ st with users := st.users.map (fun u =>
            if u.id = hodId then { u with is_active := true } else u) }, .approved)

/-! ## Candidate submission (`apply` route) -/

/-- The uploaded resume as the route sees it: a (sanitized) file name and
the byte length of the content. -/
structure ResumeFile where
  filename : String
  size : Nat
deriving DecidableEq, Repr

/-- `ALLOWED_EXT` from the configuration block. -/
def ALLOWED_EXT : List String := [".pdf", ".doc", ".docx"]

/-- `MAX_FILE_SIZE = 5 * 1024 * 1024`. -/
def MAX_FILE_SIZE : Nat := 5 * 1024 * 1024

/-- Suffix of a character list starting at its last `'.'` (empty when no
dot occurs), modelling `os.path.splitext(...)[1]`. -/
def extChars (l : List Char) : List Char :=
  match l with
  | [] => []
  | c :: cs =>
    let r := extChars cs
    if r ≠ [] then r else if c = '.' then c :: cs else []

/-- `allowed_file`: the lower-cased extension must be in `ALLOWED_EXT`. -/
def allowed_file (filename : String) : Bool :=
  ALLOWED_EXT.contains (strLower (String.mk (extChars filename.data)))

/-- The POST form of the `apply` route.  `Option String` fields are
`request.form.get(...)` results with no default; the three `*_json`
fields default to `"[]"` when missing. -/
structure SubmitForm where
  name : String
  address : String
  contact : String
  email : String
  department : String
  academic_json : Option String
  professional_json : Option String
  family_json : Option String
  positionApplied : Option String
  areaOfInterest : Option String
  currentSalary : Option String
  expectedSalary : Option String
  noticePeriod : Option String
  otherDetails : Option String
  referenceType : Option String
  referenceName : Option String
  resume : Option ResumeFile
deriving DecidableEq, Repr

/-- Outcome of the `apply` route. -/
inductive SubmitMsg where
  | validationError
  | duplicateEmail
  | duplicateContact
  | badResumeType
  | resumeTooLarge
  | submitted (appId : Nat)
deriving DecidableEq, Repr

/-- Which submit outcomes are `DuplicateSubmission` failures in the
error taxonomy (both the duplicate-email and the duplicate-contact
flash). -/
def SubmitMsg.isDuplicateSubmission : SubmitMsg → Bool
  | .duplicateEmail => true
  | .duplicateContact => true
  | _ => false

/-- `request.form.get('email','').strip().lower() or None`. -/
def submittedEmail (f : SubmitForm) : Option String :=
  let e := strLower (strTrim f.email)
  if e = "" then none else some e

/-- `if email and Application.query.filter_by(email=email).first()`. -/
def emailDup (st : Store) (email : Option String) : Bool :=
  match email with
  | some e => st.apps.any (fun a => a.email == some e)
  | none => false

/-- `Application.query.filter_by(contact=contact).first()` as a
boolean. -/
def contactDup (st : Store) (contact : String) : Bool :=
  st.apps.any (fun a => a.contact == contact)

/-- The `apply` route (POST branch): normalization of the inputs, the
combined required-field check, the two duplicate pre-checks, the resume
checks, then the insert with `status='Applied'`.  Notification dispatch
(`render_and_send`) is fire-and-forget and mutates nothing, so it is not
modelled. -/
def apply (st : Store) (f : SubmitForm) : Store × SubmitMsg :=
  let name := strTrim f.name
  let address := strTrim f.address
  let contact := normalizeContact f.contact
  let email : Option String := submittedEmail f
  let department := strTrim f.department
  if name = "" ∨ address = "" ∨ contact = "" ∨ contact.length < 10 then
    (st, .validationError)
  else if emailDup st email then
    (st, .duplicateEmail)
  else if contactDup st contact then
    (st, .duplicateContact)
  else
    let resumeRes : Except SubmitMsg (Option String) :=
      match f.resume with
      | none => .ok none
      | some r =>
        if ¬ allowed_file r.filename then .error .badResumeType
        else if MAX_FILE_SIZE < r.size then .error .resumeTooLarge
        else .ok (some r.filename)
    match resumeRes with
    | .error e => (st, e)
    | .ok rfn =>
      let newApp : Application :=
        { id := st.nextAppId, name := name, address := address, contact := contact,
          email := email,
          academic_json := f.academic_json.getD "[]",
          professional_json := f.professional_json.getD "[]",
          family_json := f.family_json.getD "[]",
          position_applied := f.positionApplied, department := department,
          area_of_interest := f.areaOfInterest, current_salary := f.currentSalary,
          expected_salary := f.expectedSalary, notice_period := f.noticePeriod,
          resume_filename := rfn, other_details := f.otherDetails,
          reference_type := f.referenceType, reference_name := f.referenceName,
          status := "Applied", assigned_hod_id := none, applied_at := st.now }
      ({ st with apps := st.apps ++ [newApp], nextAppId := st.nextAppId + 1 },
       .submitted newApp.id)

/-! ## Lifecycle transitions (`hr_assign`, `hod_result`) -/

/-- Outcome of the `hr_assign` route. -/
inductive AssignMsg where
  | accessDenied
  | notFound
  | selectHod
  | valueError
  | assigned
deriving DecidableEq, Repr

/-- The `hr_assign` route: the `login_required(role='HR')` gate, lookup
of the application (flashing "Application not found" when absent), the
falsy check on the `hod_id` form field ("Select HOD"), `int(hod_id)`
(whose failure aborts the request, `valueError`), then the mutation
`assigned_hod_id = int(hod_id)`, `status = 'Assigned'`.  The HOD row is
looked up only for the notification, which is skipped when it is
absent. -/
def hr_assign (st : Store) (callerRole : Role) (appId : Nat) (hodIdField : String) :
    Store × AssignMsg :=
  if callerRole ≠ .HR then (st, .accessDenied)
  else match getApp st appId with
    | none => (st, .notFound)
    | some _ =>
      if hodIdField = "" then (st, .selectHod)
      else match strToNat hodIdField with
        | none => (st, .valueError)
        | some h =>
          ({ st with apps := st.apps.map (fun a =>
              if a.id = appId then { a with assigned_hod_id := some h, status := "Assigned" }
              else a) }, .assigned)

/-- Outcome of the `hod_result` route. -/
inductive ResultMsg where
  | accessDenied
  | invalidStatus
  | notAssigned
  | updated
deriving DecidableEq, Repr

/-- Which `hod_result` outcomes are `Forbidden` failures in the error
taxonomy: the role gate ("Access denied") and the ownership check ("Not
assigned to you"). -/
def ResultMsg.isForbidden : ResultMsg → Bool
  | .accessDenied => true
  | .notAssigned => true
  | _ => false

/-- The tuple in `if status not in ('Interviewed','Rejected','Selected','OnHold')`. -/
def validOutcomes : List String := ["Interviewed", "Rejected", "Selected", "OnHold"]

/-- The `hod_result` route: the `login_required(role='HOD')` gate, then
the membership check on the requested status ("Invalid status"), then
the combined existence/ownership check ("Not assigned to you"), then the
status overwrite. -/
def hod_result (st : Store) (callerId : Nat) (callerRole : Role) (appId : Nat)
    (status : String) : Store × ResultMsg :=
  if callerRole ≠ .HOD then (st, .accessDenied)
  else if ¬ (status ∈ validOutcomes) then (st, .invalidStatus)
  else match getApp st appId with
    | none => (st, .notAssigned)
    | some a =>
      if a.assigned_hod_id ≠ some callerId then (st, .notAssigned)
      else
        ({ st with apps := st.apps.map (fun x =>
            if x.id = appId then { x with status := status } else x) }, .updated)

/-! ## JSON values and `json.loads`

The three `*_json` columns are decoded with Python's `json.loads`; the
reader below is an executable model of it (integer numerals only and
the common escape forms — the repository's payloads are flat string
records, see §3 of the design).  A decode failure is `none`, matching a
raised `JSONDecodeError`. -/

/-- A decoded JSON value (`dict`s keep their key order; a duplicate key
is resolved to the last occurrence at lookup time, as Python's dict
construction does). -/
inductive Json where
  | null
  | bool (b : Bool)
  | num (n : Int)
  | str (s : String)
  | arr (xs : List Json)
  | obj (kvs : List (String × Json))
deriving Repr

/-- JSON whitespace skipping. -/
def skipWs (cs : List Char) : List Char :=
  match cs with
  | [] => []
  | c :: t => if isWSChar c then skipWs t else cs

/-- Decoding of the simple JSON string escapes. -/
def escChar (c : Char) : Option Char :=
  if c = 'n' then some '\n'
  else if c = 't' then some '\t'
  else if c = 'r' then some '\r'
  else if c = '"' ∨ c = '\\' ∨ c = '/' then some c
  else none

/-- Body of a JSON string up to its closing quote, decoding the simple
escapes; returns the decoded characters and the remainder. -/
def parseStrChars : List Char → Option (List Char × List Char)
  | [] => none
  | '"' :: rest => some ([], rest)
  | '\\' :: c :: rest =>
    (match escChar c with
     | none => none
     | some ec => (parseStrChars rest).map fun p => (ec :: p.1, p.2))
  | c :: rest => (parseStrChars rest).map fun p => (c :: p.1, p.2)

/-- An integer numeral with optional leading minus sign. -/
def parseNum (cs : List Char) : Option (Int × List Char) :=
  match cs with
  | '-' :: cs' =>
    let ds := cs'.takeWhile Char.isDigit
    if ds = [] then none
    else some (-(Int.ofNat (digitsVal ds)), cs'.dropWhile Char.isDigit)
  | _ =>
    let ds := cs.takeWhile Char.isDigit
    if ds = [] then none
    else some (Int.ofNat (digitsVal ds), cs.dropWhile Char.isDigit)

mutual

/-- One JSON value, fuelled so that the reader is structurally
recursive. -/
def parseVal : Nat → List Char → Option (Json × List Char)
  | 0, _ => none
  | fuel + 1, cs =>
    match skipWs cs with
    | 'n' :: 'u' :: 'l' :: 'l' :: rest => some (.null, rest)
    | 't' :: 'r' :: 'u' :: 'e' :: rest => some (.bool true, rest)
    | 'f' :: 'a' :: 'l' :: 's' :: 'e' :: rest => some (.bool false, rest)
    | '"' :: rest => (parseStrChars rest).map fun p => (.str (String.mk p.1), p.2)
    | '[' :: rest =>
      (match skipWs rest with
       | ']' :: r2 => some (.arr [], r2)
       | r2 => parseArrItems fuel r2 [])
    | '\x7b' :: rest =>
      (match skipWs rest with
       | '\x7d' :: r2 => some (.obj [], r2)
       | r2 => parseObjItems fuel r2 [])
    | cs' => (parseNum cs').map fun p => (.num p.1, p.2)

/-- The comma-separated items of a non-empty JSON array. -/
def parseArrItems : Nat → List Char → List Json → Option (Json × List Char)
  | 0, _, _ => none
  | fuel + 1, cs, acc =>
    match parseVal fuel cs with
    | none => none
    | some (v, rest) =>
      match skipWs rest with
      | ',' :: r2 => parseArrItems fuel r2 (acc ++ [v])
      | ']' :: r2 => some (.arr (acc ++ [v]), r2)
      | _ => none

/-- The comma-separated members of a non-empty JSON object. -/
def parseObjItems : Nat → List Char → List (String × Json) →
    Option (Json × List Char)
  | 0, _, _ => none
  | fuel + 1, cs, acc =>
    match skipWs cs with
    | '"' :: rest =>
      (match parseStrChars rest with
       | none => none
       | some (kcs, r1) =>
         match skipWs r1 with
         | ':' :: r2 =>
           (match parseVal fuel r2 with
            | none => none
            | some (v, r3) =>
              match skipWs r3 with
              | ',' :: r4 => parseObjItems fuel r4 (acc ++ [(String.mk kcs, v)])
              | '\x7d' :: r4 => some (.obj (acc ++ [(String.mk kcs, v)]), r4)
              | _ => none)
         | _ => none)
    | _ => none

end

/-- `json.loads`: decode one JSON document with nothing but whitespace
after it. -/
def loads (s : String) : Option Json :=
  match parseVal (s.length + 2) s.data with
  | some (j, rest) => if skipWs rest = [] then some j else none
  | none => none

/-! ## The export projection (`export_excel`)

Sheets are modelled as lists of data rows (the constant header rows are
not repeated here); a cell is a decoded JSON value, with `Json.null` for
a SQL `NULL`.  The per-record loop of the route appends rows until the
first unhandled exception, which aborts the whole request: an aborted
export is `none`. -/

/-- `a.academic_json or "[]"`: a falsy (empty) column falls back to an
empty list literal. -/
def payloadOr (s : String) : String := if s = "" then "[]" else s

/-- `r.get(k, "")` on a decoded object: the value at the last occurrence
of the key (Python dict construction keeps the last duplicate), with the
empty string as default. -/
def jget (kvs : List (String × Json)) (k : String) : Json :=
  match kvs.reverse.find? (fun kv => kv.1 == k) with
  | some kv => kv.2
  | none => Json.str ""

/-- The keys projected into the `Academic` sheet. -/
def acadFields : List String := ["sr", "qualification", "college", "year", "grade"]

/-- The keys projected into the `Professional` sheet. -/
def profFields : List String := ["sr", "company", "designation", "tenure", "reason"]

/-- The keys projected into the `Family` sheet. -/
def famFields : List String := ["sr", "name", "relation", "age", "occupation"]

/-- One secondary-sheet row: the parent application id followed by the
projected values of one sub-record. -/
def rowFor (fields : List String) (appId : Nat) (kvs : List (String × Json)) : List Json :=
  Json.num (Int.ofNat appId) :: fields.map (fun k => jget kvs k)

/-- The sheet-building loop over one list, stopping at the first
failure (an unhandled exception aborts the route). -/
def traverseOption {α β : Type} (f : α → Option β) (l : List α) : Option (List β) :=
  match l with
  | [] => some []
  | a :: t => (f a).bind fun b => (traverseOption f t).map fun bs => b :: bs

/-- The secondary-sheet rows contributed by one record's payload:
`json.loads` inside `try/except` (a decode failure degrades to `[]`), the
`isinstance(..., dict)` wrap of a single object, then `r.get` on each
entry.  Iterating a non-list decode result or calling `.get` on a
non-object entry raises outside the `try`, aborting the export —
except for a decoded string, which iterates over its characters and so
raises only when it is non-empty. -/
def recordRows (fields : List String) (appId : Nat) (payload : String) :
    Option (List (List Json)) :=
  let decoded : Json :=
    match loads (payloadOr payload) with
    | none => Json.arr []
    | some j => j
  match decoded with
  | Json.obj kvs => some [rowFor fields appId kvs]
  | Json.arr items =>
    traverseOption (fun it =>
      match it with
      | Json.obj kvs => some (rowFor fields appId kvs)
      | _ => none) items
  | Json.str s => if s = "" then some [] else none
  | _ => none

/-- Stable insertion of a record into a list that is ascending by
`applied_at`. -/
def insertAsc (a : Application) : List Application → List Application
  | [] => [a]
  | b :: bs =>
    if b.applied_at ≤ a.applied_at then b :: insertAsc a bs else a :: b :: bs

/-- `Application.query.order_by(Application.applied_at.asc()).all()`. -/
def sortByAppliedAt (l : List Application) : List Application :=
  l.foldr insertAsc []

/-- The denormalized display name of the assigned HOD
(`User.query.filter_by(id=a.assigned_hod_id).first()`, `""` when there
is no such user or no assignment). -/
def hodNameOf (st : Store) (oid : Option Nat) : String :=
  match oid with
  | none => ""
  | some i =>
    match st.users.find? (fun u => u.id == i) with
    | some u => u.name
    | none => ""

/-- An optional string column as a cell. -/
def jstrOpt : Option String → Json
  | none => Json.null
  | some s => Json.str s

/-- `strftime("%Y-%m-%d %H:%M")` on the abstract timestamp, modelled as
its decimal rendering. -/
def formatTs (t : Nat) : String := toString t

/-- One row of the primary `Applications` sheet. -/
def primaryRow (st : Store) (a : Application) : List Json :=
  [Json.num (Int.ofNat a.id), Json.str a.name, Json.str a.address, Json.str a.contact,
   jstrOpt a.email, jstrOpt a.position_applied, Json.str a.department,
   jstrOpt a.area_of_interest, jstrOpt a.current_salary, jstrOpt a.expected_salary,
   jstrOpt a.notice_period, Json.str a.status, Json.str (hodNameOf st a.assigned_hod_id),
   jstrOpt a.resume_filename, jstrOpt a.reference_type, jstrOpt a.reference_name,
   Json.str (a.other_details.getD ""), Json.str (formatTs a.applied_at)]

/-- The primary `Applications` sheet: one row per record, oldest
first. -/
def primarySheet (st : Store) : List (List Json) :=
  (sortByAppliedAt st.apps).map (primaryRow st)

/-- One secondary sheet: the concatenation, record by record in export
order, of each record's contributed rows. -/
def exportSheet (fields : List String) (sel : Application → String) (st : Store) :
    Option (List (List Json)) :=
  (traverseOption (fun a => recordRows fields a.id (sel a)) (sortByAppliedAt st.apps)).map
    List.flatten

/-- The `Academic` sheet of the export. -/
def exportAcademic (st : Store) : Option (List (List Json)) :=
  exportSheet acadFields (fun a => a.academic_json) st

/-- The `Professional` sheet of the export. -/
def exportProfessional (st : Store) : Option (List (List Json)) :=
  exportSheet profFields (fun a => a.professional_json) st

/-- The `Family` sheet of the export. -/
def exportFamily (st : Store) : Option (List (List Json)) :=
  exportSheet famFields (fun a => a.family_json) st

/-- The `export_excel` route: all four sheets of the workbook, `none`
when the per-record loop raises anywhere (the file is then never
saved). -/
def export_excel (st : Store) :
    Option (List (List Json) × List (List Json) × List (List Json) × List (List Json)) :=
  match exportAcademic st, exportProfessional st, exportFamily st with
  | some ac, some pr, some fa => some (primarySheet st, ac, pr, fa)
  | _, _, _ => none

/-! ## General lemmas about the list machinery -/

theorem find?_append_of_all_false {α : Type} {p : α → Bool} :
    ∀ {l₁ : List α} (l₂ : List α), (∀ x ∈ l₁, p x = false) →
      (l₁ ++ l₂).find? p = l₂.find? p := by
  intro l₁
  induction l₁ with
  | nil => intro l₂ _; rfl
  | cons a l ih =>
    intro l₂ h
    have ha : p a = false := h a (List.mem_cons_self a l)
    simp only [List.cons_append, List.find?, ha]
    exact ih l₂ (fun x hx => h x (List.mem_cons_of_mem a hx))

theorem find?_map_invariant {α : Type} {p : α → Bool} {g : α → α}
    (hp : ∀ x, p (g x) = p x) :
    ∀ l : List α, (l.map g).find? p = (l.find? p).map g := by
  intro l
  induction l with
  | nil => rfl
  | cons a l ih =>
    simp only [List.map_cons, List.find?]
    rw [hp a]
    cases hpa : p a with
    | true => simp
    | false => simpa using ih

theorem traverseOption_forall_some {α β : Type} {f : α → Option β} :
    ∀ {l : List α}, (∀ x ∈ l, ∃ y, f x = some y) →
      ∃ ys, traverseOption f l = some ys ∧ ys.length = l.length := by
  intro l
  induction l with
  | nil => intro _; exact ⟨[], rfl, rfl⟩
  | cons a l ih =>
    intro h
    obtain ⟨y, hy⟩ := h a (List.mem_cons_self a l)
    obtain ⟨ys, hys, hlen⟩ := ih (fun x hx => h x (List.mem_cons_of_mem a hx))
    refine ⟨y :: ys, ?_, by simp [hlen]⟩
    simp [traverseOption, hy, hys]

theorem traverseOption_mem {α β : Type} {f : α → Option β} :
    ∀ {l : List α} {ys : List β}, traverseOption f l = some ys →
      ∀ y ∈ ys, ∃ x ∈ l, f x = some y := by
  intro l
  induction l with
  | nil =>
    intro ys h y hy
    simp only [traverseOption] at h
    cases h
    simp at hy
  | cons a l ih =>
    intro ys h y hy
    simp only [traverseOption] at h
    cases hfa : f a with
    | none => rw [hfa] at h; cases h
    | some b =>
      rw [hfa] at h
      cases hrest : traverseOption f l with
      | none => rw [hrest] at h; cases h
      | some bs =>
        rw [hrest] at h
        cases h
        rcases List.mem_cons.mp hy with hyb | hybs
        · exact ⟨a, List.mem_cons_self a l, by rw [hfa, hyb]⟩
        · obtain ⟨x, hx, hfx⟩ := ih hrest y hybs
          exact ⟨x, List.mem_cons_of_mem a hx, hfx⟩

theorem flatten_length_const {α : Type} {M : Nat} :
    ∀ {L : List (List α)}, (∀ c ∈ L, c.length = M) →
      L.flatten.length = L.length * M := by
  intro L
  induction L with
  | nil => intro _; simp
  | cons c L ih =>
    intro h
    have hc : c.length = M := h c (List.mem_cons_self c L)
    have hL := ih (fun x hx => h x (List.mem_cons_of_mem c hx))
    simp [List.flatten, hc, hL, Nat.succ_mul, Nat.add_comm]

theorem insertAsc_perm (a : Application) :
    ∀ l : List Application, (insertAsc a l).Perm (a :: l) := by
  intro l
  induction l with
  | nil => exact List.Perm.refl _
  | cons b bs ih =>
    simp only [insertAsc]
    by_cases hb : b.applied_at ≤ a.applied_at
    · simp only [if_pos hb]
      exact (List.Perm.cons b ih).trans (List.Perm.swap a b bs)
    · simp only [if_neg hb]
      exact List.Perm.refl _

theorem sortByAppliedAt_perm :
    ∀ l : List Application, (sortByAppliedAt l).Perm l := by
  intro l
  induction l with
  | nil => exact List.Perm.refl _
  | cons a l ih =>
    have : sortByAppliedAt (a :: l) = insertAsc a (sortByAppliedAt l) := rfl
    rw [this]
    exact (insertAsc_perm a (sortByAppliedAt l)).trans (List.Perm.cons a ih)

/-! ## Lemmas about the per-record export step -/

theorem recordRows_decodeFail {fields : List String} {i : Nat} {payload : String}
    (h : loads (payloadOr payload) = none) :
    recordRows fields i payload = some [] := by
  simp [recordRows, h, traverseOption]

theorem recordRows_obj {fields : List String} {i : Nat} {payload : String}
    {kvs : List (String × Json)}
    (h : loads (payloadOr payload) = some (Json.obj kvs)) :
    recordRows fields i payload = some [rowFor fields i kvs] := by
  simp [recordRows, h]

theorem recordRows_arr {fields : List String} {i : Nat} {payload : String}
    {items : List Json}
    (h : loads (payloadOr payload) = some (Json.arr items)) :
    recordRows fields i payload =
      traverseOption (fun it =>
        match it with
        | Json.obj kvs => some (rowFor fields i kvs)
        | _ => none) items := by
  simp [recordRows, h]

theorem recordRows_of_objList {fields : List String} {i : Nat} {payload : String}
    {items : List Json}
    (h : loads (payloadOr payload) = some (Json.arr items))
    (hobj : ∀ it ∈ items, ∃ kvs, it = Json.obj kvs) :
    ∃ rs, recordRows fields i payload = some rs ∧ rs.length = items.length := by
  rw [recordRows_arr h]
  apply traverseOption_forall_some
  intro it hit
  obtain ⟨kvs, hk⟩ := hobj it hit
  subst hk
  exact ⟨rowFor fields i kvs, rfl⟩

theorem recordRows_head {fields : List String} {i : Nat} {payload : String}
    {rs : List (List Json)}
    (h : recordRows fields i payload = some rs) :
    ∀ r ∈ rs, r.head? = some (Json.num (Int.ofNat i)) := by
  intro r hr
  unfold recordRows at h
  cases hl : loads (payloadOr payload) with
  | none =>
    rw [hl] at h
    simp [traverseOption] at h
    subst h
    simp at hr
  | some j =>
    rw [hl] at h
    cases j with
    | null => simp at h
    | bool b => simp at h
    | num n => simp at h
    | str s =>
      by_cases hs : s = ""
      · simp [hs] at h
        subst h
        simp at hr
      · simp [hs] at h
    | obj kvs =>
      simp at h
      subst h
      simp at hr
      subst hr
      simp [rowFor]
    | arr items =>
      simp at h
      obtain ⟨it, _, hfit⟩ := traverseOption_mem h r hr
      rcases it with _ | b | n | s | xs | kvs <;> simp at hfit
      subst hfit
      simp [rowFor]

theorem map_head_primary (st : Store) :
    ∀ l : List Application, (l.map (primaryRow st)).map List.head? =
      l.map (fun a => some (Json.num (Int.ofNat a.id))) := by
  intro l
  induction l with
  | nil => rfl
  | cons a l ih => simp [primaryRow, ih]

/-! ## Lemmas about id-keyed updates -/

theorem find?_update_by_id {l : List Application} {appId : Nat} {a : Application}
    (g : Application → Application) (hg : ∀ x, (g x).id = x.id)
    (ha : l.find? (fun x => x.id == appId) = some a) :
    (l.map (fun x => if x.id = appId then g x else x)).find? (fun x => x.id == appId) =
      some (g a) := by
  have hp : ∀ x, ((if x.id = appId then g x else x).id == appId) = (x.id == appId) := by
    intro x
    by_cases hx : x.id = appId
    · simp [hx, hg]
    · simp [hx]
  rw [find?_map_invariant hp, ha]
  have haid : a.id = appId := by simpa using List.find?_some ha
  simp [haid]

/-! ## Example fixtures -/

/-- The bootstrap HR account (`create_tables`). -/
def hrUser : User :=
  { id := 1, name := "HR Admin", email := "hr@accordhospitals.com",
    password_hash := hashPassword "ChangeMe123!", role := .HR, is_active := true }

/-- A minimal submitted application on file. -/
def exApp : Application :=
  { id := 1, name := "A. Kumar", address := "12 Station Road", contact := "9876543210",
    email := none, academic_json := "[]", professional_json := "[]", family_json := "[]",
    position_applied := none, department := "", area_of_interest := none,
    current_salary := none, expected_salary := none, notice_period := none,
    resume_filename := none, other_details := none, reference_type := none,
    reference_name := none, status := "Applied", assigned_hod_id := none, applied_at := 10 }

/-- A store holding the HR account and one application. -/
def exStore1 : Store :=
  { users := [hrUser], apps := [exApp], nextUserId := 2, nextAppId := 2, now := 20 }

/-! ## Claim C1 -/

/-- Shared success shape of `hr_assign`: when the application exists and
the form carries a numeric HOD id, the record is overwritten with that
id and status `Assigned` — no existence check on the HOD account
happens. -/
theorem hr_assign_success (st : Store) (appId : Nat) (hodStr : String) (h : Nat)
    (a : Application) (ha : getApp st appId = some a) (hne : hodStr ≠ "")
    (hn : strToNat hodStr = some h) :
    (hr_assign st .HR appId hodStr).2 = .assigned ∧
    getApp (hr_assign st .HR appId hodStr).1 appId =
      some { a with assigned_hod_id := some h, status := "Assigned" } := by
  have hres : hr_assign st .HR appId hodStr =
      ({ st with apps := st.apps.map (fun x =>
          if x.id = appId then { x with assigned_hod_id := some h, status := "Assigned" }
          else x) }, .assigned) := by
    simp [hr_assign, ha, hne, hn]
  rw [hres]
  exact ⟨rfl, find?_update_by_id _ (fun x => rfl) ha⟩

/-- C1 (counterexample): with the application present but no account
with id `99`, `hr_assign` by HR does not fail with `NotFound`; it
mutates the record to `assigned_hod_id = 99`, `status = 'Assigned'`. -/
theorem hr_assign_missing_hod_cex :
    getUser exStore1 99 = none ∧
    (hr_assign exStore1 .HR 1 "99").2 = .assigned ∧
    (hr_assign exStore1 .HR 1 "99").1 ≠ exStore1 ∧
    getApp (hr_assign exStore1 .HR 1 "99").1 1 =
      some { exApp with assigned_hod_id := some 99, status := "Assigned" } := by
  decide

/-- C1 (amended): `hr_assign` by HR fails with `NotFound` (and mutates
nothing) exactly when the application id is absent; when the application
exists and the HOD form field is a non-empty numeral, it sets
`assigned_hod_id` to that numeral and the status to `Assigned` without
checking that any such account exists. -/
theorem hr_assign_notfound_or_assign (st : Store) (appId : Nat) (hodStr : String) :
    (getApp st appId = none → hr_assign st .HR appId hodStr = (st, .notFound)) ∧
    (∀ a h, getApp st appId = some a → hodStr ≠ "" → strToNat hodStr = some h →
      (hr_assign st .HR appId hodStr).2 = .assigned ∧
      getApp (hr_assign st .HR appId hodStr).1 appId =
        some { a with assigned_hod_id := some h, status := "Assigned" }) := by
  constructor
  · intro hnone
    simp [hr_assign, hnone]
  · intro a h ha hne hn
    exact hr_assign_success st appId hodStr h a ha hne hn

/-- C1 amended, witnessed at concrete inputs: a missing application id
yields `NotFound` with the store untouched, and an existing one gets
assigned. -/
theorem hr_assign_notfound_or_assign_witness :
    hr_assign exStore1 .HR 5 "1" = (exStore1, .notFound) ∧
    (hr_assign exStore1 .HR 1 "1").2 = .assigned :=
  ⟨(hr_assign_notfound_or_assign exStore1 5 "1").1 (by decide),
   (((hr_assign_notfound_or_assign exStore1 1 "1").2 exApp 1 (by decide) (by decide)
      (by decide))).1⟩

/-! ## Claim C9 -/

/-- A store whose only application is already in the `Joined` status. -/
def exStore9 : Store :=
  { users := [hrUser], apps := [{ exApp with status := "Joined" }],
    nextUserId := 2, nextAppId := 2, now := 20 }

/-- C9: for an existing record in any lifecycle status whatsoever,
`hr_assign` with a non-empty (numeric) HOD id succeeds and overwrites
the status to `Assigned`; no guard restricts assignment to records in
the `Applied` state. -/
theorem hr_assign_ignores_current_status (st : Store) (appId : Nat) (hodStr : String)
    (h : Nat) (a : Application) (ha : getApp st appId = some a) (hne : hodStr ≠ "")
    (hn : strToNat hodStr = some h) :
    (hr_assign st .HR appId hodStr).2 = .assigned ∧
    (getApp (hr_assign st .HR appId hodStr).1 appId).map (fun x => x.status) =
      some "Assigned" := by
  obtain ⟨h1, h2⟩ := hr_assign_success st appId hodStr h a ha hne hn
  rw [h2] at *
  exact ⟨h1, rfl⟩

/-- C9 witnessed on a record already in the `Joined` status. -/
theorem hr_assign_ignores_current_status_witness :
    (hr_assign exStore9 .HR 1 "7").2 = .assigned ∧
    (getApp (hr_assign exStore9 .HR 1 "7").1 1).map (fun x => x.status) =
      some "Assigned" :=
  hr_assign_ignores_current_status exStore9 1 "7" 7 { exApp with status := "Joined" }
    (by decide) (by decide) (by decide)

/-! ## Claims C3 and C4 -/

/-- C3: with a valid outcome status and an existing record, `hod_result`
called by anyone who is not the assigned HOD (wrong role, or an HOD
other than the assigned one) fails with a `Forbidden` outcome and leaves
the store unchanged; called by the assigned HOD it succeeds and the
record's status afterwards is exactly the requested one. -/
theorem hod_result_authority (st : Store) (callerId : Nat) (callerRole : Role)
    (appId : Nat) (status : String) (a : Application)
    (hst : status ∈ validOutcomes) (ha : getApp st appId = some a) :
    ((callerRole ≠ .HOD ∨ a.assigned_hod_id ≠ some callerId) →
      (hod_result st callerId callerRole appId status).1 = st ∧
      ((hod_result st callerId callerRole appId status).2).isForbidden = true) ∧
    (callerRole = .HOD → a.assigned_hod_id = some callerId →
      (hod_result st callerId callerRole appId status).2 = .updated ∧
      getApp (hod_result st callerId callerRole appId status).1 appId =
        some { a with status := status }) := by
  constructor
  · intro hbad
    by_cases hrole : callerRole = .HOD
    · rcases hbad with hb | hb
      · exact absurd hrole hb
      · simp [hod_result, hrole, hst, ha, hb, ResultMsg.isForbidden]
    · simp [hod_result, hrole, ResultMsg.isForbidden]
  · intro hrole hown
    have hres : hod_result st callerId callerRole appId status =
        ({ st with apps := st.apps.map (fun x =>
            if x.id = appId then { x with status := status } else x) }, .updated) := by
      simp [hod_result, hrole, hst, ha, hown]
    rw [hres]
    exact ⟨rfl, find?_update_by_id _ (fun x => rfl) ha⟩

/-- A second HOD account, unapproved. -/
def hodUser2 : User :=
  { id := 2, name := "Dr. Mehta", email := "mehta@accordhospitals.com",
    password_hash := hashPassword "secret99", role := .HOD, is_active := true }

/-- A store where application 1 is assigned to HOD 2. -/
def exStore3 : Store :=
  { users := [hrUser, hodUser2],
    apps := [{ exApp with status := "Assigned", assigned_hod_id := some 2 }],
    nextUserId := 3, nextAppId := 2, now := 20 }

/-- C3 witnessed: HOD 7 (not the assigned one) is refused with the store
unchanged, while the assigned HOD 2 records `Selected` exactly. -/
theorem hod_result_authority_witness :
    ((hod_result exStore3 7 .HOD 1 "Selected").1 = exStore3 ∧
      ((hod_result exStore3 7 .HOD 1 "Selected").2).isForbidden = true) ∧
    ((hod_result exStore3 2 .HOD 1 "Selected").2 = .updated ∧
      getApp (hod_result exStore3 2 .HOD 1 "Selected").1 1 =
        some { exApp with status := "Selected", assigned_hod_id := some 2 }) := by
  constructor
  · exact (hod_result_authority exStore3 7 .HOD 1 "Selected"
      { exApp with status := "Assigned", assigned_hod_id := some 2 }
      (by decide) (by decide)).1 (by decide)
  · have h := (hod_result_authority exStore3 2 .HOD 1 "Selected"
      { exApp with status := "Assigned", assigned_hod_id := some 2 }
      (by decide) (by decide)).2 rfl rfl
    exact h

/-- C4: a requested status outside {Interviewed, Rejected, Selected,
OnHold} makes `hod_result` fail with `InvalidTransition` and leaves the
store (hence every record's status) unchanged, for any HOD-session
caller and any application id. -/
theorem hod_result_invalid_status (st : Store) (callerId appId : Nat) (status : String)
    (h : ¬ status ∈ validOutcomes) :
    hod_result st callerId .HOD appId status = (st, .invalidStatus) := by
  simp [hod_result, h]

/-- C4 witnessed: requesting `Offered` is rejected before any lookup. -/
theorem hod_result_invalid_status_witness :
    hod_result exStore3 2 .HOD 1 "Offered" = (exStore3, .invalidStatus) :=
  hod_result_invalid_status exStore3 2 1 "Offered" (by decide)

/-! ## Claim C2 -/

/-- The fields named by the single validation flash message "Name,
address and valid 10-digit contact are required.": the message names all
three required fields, whichever subset was violated. -/
def validationMessageFields : List String := ["name", "address", "contact"]

/-- The claim's reading of the required-field checks: the list of
violated fields of a submission (empty name, empty address, normalized
contact of fewer than 10 digits). -/
def specViolatedFields (name address contact : String) : List String :=
  (if name = "" then ["name"] else []) ++
  (if address = "" then ["address"] else []) ++
  (if contact.length < 10 then ["contact"] else [])

theorem specViolatedFields_subset (n a c : String) :
    ∀ fld ∈ specViolatedFields n a c, fld ∈ validationMessageFields := by
  intro fld h
  unfold specViolatedFields at h
  split_ifs at h <;> simp_all [validationMessageFields] <;> tauto

/-- C2: whenever at least one required field is violated, `apply` fails
with the validation error, inserts nothing, and the error message's
field list contains every violated field (it names all the required
fields at once, never just the first violation found). -/
theorem apply_validation_lists_all (st : Store) (f : SubmitForm)
    (h : specViolatedFields (strTrim f.name) (strTrim f.address)
        (normalizeContact f.contact) ≠ []) :
    apply st f = (st, .validationError) ∧
    ∀ fld ∈ specViolatedFields (strTrim f.name) (strTrim f.address)
        (normalizeContact f.contact), fld ∈ validationMessageFields := by
  refine ⟨?_, specViolatedFields_subset _ _ _⟩
  have hcond : strTrim f.name = "" ∨ strTrim f.address = "" ∨
      normalizeContact f.contact = "" ∨ (normalizeContact f.contact).length < 10 := by
    by_contra hc
    push_neg at hc
    obtain ⟨h1, h2, _, h4⟩ := hc
    exact h (by simp [specViolatedFields, h1, h2, h4])
  have hcond' : (strTrim f.name = "" ∨ strTrim f.address = "" ∨
      normalizeContact f.contact = "" ∨ (normalizeContact f.contact).length < 10) = True :=
    eq_true hcond
  simp [apply, hcond']

/-- A submission violating two of the required fields at once (empty
name, short contact). -/
def shortForm : SubmitForm :=
  { name := "", address := "Somewhere", contact := "123", email := "",
    department := "", academic_json := none, professional_json := none,
    family_json := none, positionApplied := none, areaOfInterest := none,
    currentSalary := none, expectedSalary := none, noticePeriod := none,
    otherDetails := none, referenceType := none, referenceName := none,
    resume := none }

/-- C2 witnessed: both violated fields of `shortForm` are in the
message's field list and the submission is rejected without insert. -/
theorem apply_validation_lists_all_witness :
    apply exStore1 shortForm = (exStore1, .validationError) ∧
    ∀ fld ∈ specViolatedFields (strTrim shortForm.name) (strTrim shortForm.address)
        (normalizeContact shortForm.contact), fld ∈ validationMessageFields :=
  apply_validation_lists_all exStore1 shortForm (by decide)

/-! ## Claim C5 -/

/-- A submission whose contact duplicates the one on file but whose name
is empty. -/
def dupContactForm : SubmitForm :=
  { name := "", address := "Somewhere", contact := "987-654-3210", email := "",
    department := "", academic_json := none, professional_json := none,
    family_json := none, positionApplied := none, areaOfInterest := none,
    currentSalary := none, expectedSalary := none, noticePeriod := none,
    otherDetails := none, referenceType := none, referenceName := none,
    resume := none }

/-- C5 (counterexample): the store already holds the normalized contact
of `dupContactForm`, yet `apply` fails with `ValidationError` (the empty
name is checked first), not with a `DuplicateSubmission` outcome — so
"regardless of the values of all other fields" does not hold. -/
theorem apply_duplicate_contact_cex :
    contactDup exStore1 (normalizeContact dupContactForm.contact) = true ∧
    apply exStore1 dupContactForm = (exStore1, .validationError) ∧
    SubmitMsg.validationError.isDuplicateSubmission = false := by
  decide

/-- C5 (amended): provided the submission passes the required-field
validation, a normalized contact already on file makes `apply` fail with
a `DuplicateSubmission` outcome and insert nothing, regardless of every
other field value. -/
theorem apply_duplicate_contact_amended (st : Store) (f : SubmitForm)
    (hval : ¬ (strTrim f.name = "" ∨ strTrim f.address = "" ∨
        normalizeContact f.contact = "" ∨ (normalizeContact f.contact).length < 10))
    (hdup : contactDup st (normalizeContact f.contact) = true) :
    (apply st f).1 = st ∧ ((apply st f).2).isDuplicateSubmission = true := by
  have hval' : (strTrim f.name = "" ∨ strTrim f.address = "" ∨
      normalizeContact f.contact = "" ∨ (normalizeContact f.contact).length < 10) = False :=
    eq_false hval
  cases hem : emailDup st (submittedEmail f) with
  | true =>
    have : apply st f = (st, .duplicateEmail) := by simp [apply, hval', hem]
    simp [this, SubmitMsg.isDuplicateSubmission]
  | false =>
    have : apply st f = (st, .duplicateContact) := by simp [apply, hval', hem, hdup]
    simp [this, SubmitMsg.isDuplicateSubmission]

/-- The same duplicate contact with all required fields present. -/
def dupContactForm2 : SubmitForm :=
  { dupContactForm with name := "B. Rao" }

/-- C5 amended, witnessed: with validation passing, the duplicate
contact is refused as a duplicate submission and nothing is inserted. -/
theorem apply_duplicate_contact_amended_witness :
    (apply exStore1 dupContactForm2).1 = exStore1 ∧
    ((apply exStore1 dupContactForm2).2).isDuplicateSubmission = true :=
  apply_duplicate_contact_amended exStore1 dupContactForm2 (by decide) (by decide)

/-! ## Claim C6 -/

theorem all_false_of_any_false {α : Type} {p : α → Bool} :
    ∀ {l : List α}, l.any p = false → ∀ x ∈ l, p x = false := by
  intro l
  induction l with
  | nil => intro _ x hx; simp at hx
  | cons a l ih =>
    intro h x hx
    simp only [List.any_cons, Bool.or_eq_false_iff] at h
    rcases List.mem_cons.mp hx with rfl | hx'
    · exact h.1
    · exact ih h.2 x hx'

/-- Successful registration dissected: the post store appends the fresh
HOD row, the returned id is the autoincrement value, and no previous
user had that email. -/
theorem register_success_shape {st : Store} {nm em pw : String} {st' : Store} {uid : Nat}
    (hreg : register st nm em pw = (st', .registered uid)) :
    st' = { st with
            users := st.users ++ [freshHOD st nm em pw],
            nextUserId := st.nextUserId + 1 } ∧
    uid = st.nextUserId ∧
    st.users.any (fun u => u.email == strLower (strTrim em)) = false := by
  unfold register at hreg
  by_cases h1 : strLower (strTrim em) = "" ∨ strTrim pw = ""
  · simp [h1] at hreg
  · rw [if_neg h1] at hreg
    cases h2 : st.users.any (fun u => u.email == strLower (strTrim em)) with
    | true => rw [h2] at hreg; simp at hreg
    | false =>
      rw [h2] at hreg
      simp [freshHOD] at hreg
      exact ⟨hreg.1.symm, hreg.2.symm, rfl⟩

/-- `login` once the user row matching the email is known, provided the
password is the one whose hash is stored. -/
theorem login_found (st : Store) (em pw : String) (u : User)
    (hfind : st.users.find? (fun v => v.email == strLower (strTrim em)) = some u)
    (hhash : u.password_hash = hashPassword (strTrim pw)) :
    login st em pw =
      (if u.role = .HOD ∧ u.is_active = false then .pendingApproval
       else .ok u.id u.role) := by
  simp only [login]
  rw [hfind]
  simp [checkPassword, hhash]

/-- C6: a freshly registered HOD cannot log in — correct credentials are
answered with the pending-approval failure — and after HR approves the
account, the same credentials succeed. -/
theorem hod_pending_until_approved (st : Store) (nm em pw : String) (st' : Store)
    (uid : Nat) (hwf : st.WF) (hreg : register st nm em pw = (st', .registered uid)) :
    login st' em pw = .pendingApproval ∧
    (hr_approve_hod st' .HR uid).2 = .approved ∧
    login (hr_approve_hod st' .HR uid).1 em pw = .ok uid .HOD := by
  obtain ⟨hst', huid, hany⟩ := register_success_shape hreg
  subst hst' huid
  have hall : ∀ v ∈ st.users, (v.email == strLower (strTrim em)) = false :=
    all_false_of_any_false hany
  have hfind1 : (st.users ++ [freshHOD st nm em pw]).find?
      (fun v => v.email == strLower (strTrim em)) = some (freshHOD st nm em pw) := by
    rw [find?_append_of_all_false _ hall]
    simp [List.find?, freshHOD]
  have hallid : ∀ v ∈ st.users, (v.id == st.nextUserId) = false := by
    intro v hv
    have hlt := hwf.1 v hv
    simp [Nat.ne_of_lt hlt]
  have hfindid : (st.users ++ [freshHOD st nm em pw]).find?
      (fun v => v.id == st.nextUserId) = some (freshHOD st nm em pw) := by
    rw [find?_append_of_all_false _ hallid]
    simp [List.find?, freshHOD]
  have happrove : hr_approve_hod
      { st with
        users := st.users ++ [freshHOD st nm em pw],
        nextUserId := st.nextUserId + 1 } .HR st.nextUserId =
      ({ st with
         users := (st.users ++ [freshHOD st nm em pw]).map (fun u =>
           if u.id = st.nextUserId then { u with is_active := true } else u),
         nextUserId := st.nextUserId + 1 }, .approved) := by
    have hnone : List.find? (fun u => u.id == st.nextUserId) st.users = none := by
      rw [List.find?_eq_none]
      intro x hx
      simp [hallid x hx]
    simp [hr_approve_hod, getUser, hnone, freshHOD]
  refine ⟨?_, ?_, ?_⟩
  · rw [login_found _ em pw _ hfind1 rfl]
    simp [freshHOD]
  · rw [happrove]
  · rw [happrove]
    have hp : ∀ x : User,
        ((if x.id = st.nextUserId then { x with is_active := true } else x).email ==
          strLower (strTrim em)) = (x.email == strLower (strTrim em)) := by
      intro x
      by_cases hx : x.id = st.nextUserId <;> simp [hx]
    have hfind2 : ((st.users ++ [freshHOD st nm em pw]).map (fun u =>
        if u.id = st.nextUserId then { u with is_active := true } else u)).find?
        (fun v => v.email == strLower (strTrim em)) =
        some { freshHOD st nm em pw with is_active := true } := by
      rw [find?_map_invariant hp, hfind1]
      simp [freshHOD]
    rw [login_found _ em pw _ hfind2 rfl]
    simp [freshHOD]

/-- An empty bootstrap store: just the HR account. -/
def exStore6 : Store :=
  { users := [hrUser], apps := [], nextUserId := 2, nextAppId := 1, now := 5 }

/-- C6 witnessed: registering `mehta@accordhospitals.com` leaves the
account pending; after HR approval the same credentials log in. -/
theorem hod_pending_until_approved_witness :
    login (register exStore6 "Dr. Mehta" "mehta@accordhospitals.com" "secret99").1
      "mehta@accordhospitals.com" "secret99" = .pendingApproval ∧
    (hr_approve_hod (register exStore6 "Dr. Mehta" "mehta@accordhospitals.com"
      "secret99").1 .HR 2).2 = .approved ∧
    login (hr_approve_hod (register exStore6 "Dr. Mehta" "mehta@accordhospitals.com"
      "secret99").1 .HR 2).1 "mehta@accordhospitals.com" "secret99" = .ok 2 .HOD :=
  hod_pending_until_approved exStore6 "Dr. Mehta" "mehta@accordhospitals.com" "secret99"
    (register exStore6 "Dr. Mehta" "mehta@accordhospitals.com" "secret99").1 2
    (by decide) (by decide)

/-! ## Claim C7 -/

/-- C7: when every record's payload of one kind decodes to a list of M
objects, that kind's secondary sheet exists and has exactly N×M data
rows (N records), the primary sheet's identifier column lists the
records in export order, and every secondary row's parent-identifier
matches exactly one primary-sheet row. -/
theorem exportSheet_rowcount_and_parent (st : Store) (fields : List String)
    (sel : Application → String) (M : Nat)
    (hnd : (st.apps.map (fun a => a.id)).Nodup)
    (hp : ∀ a ∈ st.apps, ∃ items, loads (payloadOr (sel a)) = some (Json.arr items) ∧
        items.length = M ∧ ∀ it ∈ items, ∃ kvs, it = Json.obj kvs) :
    ∃ rows, exportSheet fields sel st = some rows ∧
      rows.length = st.apps.length * M ∧
      (primarySheet st).map List.head? =
        (sortByAppliedAt st.apps).map (fun a => some (Json.num (Int.ofNat a.id))) ∧
      ∀ row ∈ rows, ∃ k : Nat, row.head? = some (Json.num (Int.ofNat k)) ∧
        ((sortByAppliedAt st.apps).map (fun a => a.id)).count k = 1 := by
  have hperm := sortByAppliedAt_perm st.apps
  have hrec : ∀ a ∈ sortByAppliedAt st.apps,
      ∃ rs, recordRows fields a.id (sel a) = some rs ∧ rs.length = M := by
    intro a ha
    obtain ⟨items, hld, hMi, hobj⟩ := hp a (hperm.mem_iff.mp ha)
    obtain ⟨rs, hrs, hlen⟩ := recordRows_of_objList hld hobj
    exact ⟨rs, hrs, by rw [hlen, hMi]⟩
  obtain ⟨chunks, hchunks, hclen⟩ :=
    traverseOption_forall_some (fun a ha => (hrec a ha).elim (fun rs h => ⟨rs, h.1⟩))
  refine ⟨chunks.flatten, ?_, ?_, ?_, ?_⟩
  · simp [exportSheet, hchunks]
  · have hclenM : ∀ c ∈ chunks, c.length = M := by
      intro c hc
      obtain ⟨a, ha, hfa⟩ := traverseOption_mem hchunks c hc
      obtain ⟨rs, hrs, hlen⟩ := hrec a ha
      rw [hrs] at hfa
      obtain rfl := Option.some.inj hfa
      exact hlen
    rw [flatten_length_const hclenM, hclen, hperm.length_eq]
  · exact map_head_primary st (sortByAppliedAt st.apps)
  · intro row hrow
    obtain ⟨c, hc, hrowc⟩ := List.mem_flatten.mp hrow
    obtain ⟨a, ha, hfa⟩ := traverseOption_mem hchunks c hc
    refine ⟨a.id, recordRows_head hfa row hrowc, ?_⟩
    have hnd' : ((sortByAppliedAt st.apps).map (fun a => a.id)).Nodup :=
      ((hperm.map (fun a => a.id)).nodup_iff).mpr hnd
    exact List.count_eq_one_of_mem hnd' (List.mem_map_of_mem _ ha)

/-- A two-entry academic payload. -/
def acadPayload2 : String := "[\x7b\"sr\": \"1\"\x7d, \x7b\"sr\": \"2\"\x7d]"

theorem acadPayload2_parses :
    ∃ items, loads (payloadOr acadPayload2) = some (Json.arr items) ∧
      items.length = 2 ∧ ∀ it ∈ items, ∃ kvs, it = Json.obj kvs := by
  refine ⟨[Json.obj [("sr", Json.str "1")], Json.obj [("sr", Json.str "2")]], rfl, rfl, ?_⟩
  intro it hit
  rcases List.mem_cons.mp hit with rfl | hit2
  · exact ⟨_, rfl⟩
  rcases List.mem_cons.mp hit2 with rfl | h3
  · exact ⟨_, rfl⟩
  · simp at h3

/-- Two applications, two academic entries each. -/
def n7App1 : Application :=
  { exApp with id := 1, academic_json := acadPayload2, applied_at := 10 }

/-- Second application for the C7 witness store. -/
def n7App2 : Application :=
  { exApp with
    id := 2, contact := "9123456780", academic_json := acadPayload2,
    applied_at := 11 }

/-- Store with N = 2 records of M = 2 academic entries. -/
def exStore7 : Store :=
  { users := [hrUser], apps := [n7App1, n7App2], nextUserId := 2, nextAppId := 3,
    now := 20 }

/-- C7 witnessed at N = 2, M = 2 on the Academic sheet. -/
theorem exportSheet_rowcount_and_parent_witness :
    ∃ rows, exportSheet acadFields (fun a => a.academic_json) exStore7 = some rows ∧
      rows.length = exStore7.apps.length * 2 ∧
      (primarySheet exStore7).map List.head? =
        (sortByAppliedAt exStore7.apps).map (fun a => some (Json.num (Int.ofNat a.id))) ∧
      ∀ row ∈ rows, ∃ k : Nat, row.head? = some (Json.num (Int.ofNat k)) ∧
        ((sortByAppliedAt exStore7.apps).map (fun a => a.id)).count k = 1 :=
  exportSheet_rowcount_and_parent exStore7 acadFields (fun a => a.academic_json) 2
    (by decide)
    (by
      intro a ha
      rcases List.mem_cons.mp ha with rfl | ha2
      · exact acadPayload2_parses
      rcases List.mem_cons.mp ha2 with rfl | h3
      · exact acadPayload2_parses
      · simp at h3)

/-! ## Claim C10 -/

/-- C10: a payload that decodes to a single JSON object is wrapped into
a one-element list: the record contributes exactly one secondary-sheet
row (it is neither degraded to an empty collection nor rejected). -/
theorem export_wraps_single_object (fields : List String) (i : Nat) (payload : String)
    (kvs : List (String × Json))
    (h : loads (payloadOr payload) = some (Json.obj kvs)) :
    recordRows fields i payload = some [rowFor fields i kvs] ∧
    (recordRows fields i payload).map List.length = some 1 := by
  refine ⟨@recordRows_obj fields i payload kvs h, ?_⟩
  rw [@recordRows_obj fields i payload kvs h]
  rfl

/-- A single-object (non-list) academic payload. -/
def objPayload : String := "\x7b\"sr\": \"1\"\x7d"

/-- C10 witnessed on a concrete one-object payload. -/
theorem export_wraps_single_object_witness :
    recordRows acadFields 1 objPayload = some [rowFor acadFields 1 [("sr", Json.str "1")]] ∧
    (recordRows acadFields 1 objPayload).map List.length = some 1 :=
  export_wraps_single_object acadFields 1 objPayload [("sr", Json.str "1")] rfl

/-! ## Claim C8 -/

/-- A record whose academic payload is valid JSON but not the expected
structured form (a list containing a list, not a record). -/
def badShapeApp : Application :=
  { exApp with id := 1, academic_json := "[[]]" }

/-- A record whose academic payload is a proper one-record list. -/
def goodApp : Application :=
  { exApp with
    id := 2, contact := "9123456780",
    academic_json := "[\x7b\"sr\": \"1\"\x7d]", applied_at := 11 }

/-- Store pairing the ill-shaped record with a good one. -/
def exStore8 : Store :=
  { users := [hrUser], apps := [badShapeApp, goodApp], nextUserId := 2, nextAppId := 3,
    now := 20 }

/-- C8 (counterexample): `badShapeApp`'s payload decodes as JSON but not
as the expected list of records; instead of degrading to an empty
collection and exporting the rest, the whole export aborts (`.get` is
called on a non-dict outside the `try`). -/
theorem export_malformed_aborts_cex :
    loads (payloadOr badShapeApp.academic_json) = some (Json.arr [Json.arr []]) ∧
    recordRows acadFields badShapeApp.id badShapeApp.academic_json = none ∧
    exportAcademic exStore8 = none ∧
    export_excel exStore8 = none :=
  ⟨rfl, rfl, rfl, rfl⟩

/-- C8 (amended): only a payload that fails to JSON-decode degrades to
an empty collection for its record; provided every record that does
decode is well-shaped, the export still succeeds for all records. -/
theorem export_decode_failure_degrades (fields : List String)
    (sel : Application → String) (st : Store)
    (h : ∀ a ∈ st.apps, loads (payloadOr (sel a)) ≠ none →
        ∃ rs, recordRows fields a.id (sel a) = some rs) :
    (∃ rows, exportSheet fields sel st = some rows) ∧
    ∀ a ∈ st.apps, loads (payloadOr (sel a)) = none →
      recordRows fields a.id (sel a) = some [] := by
  constructor
  · have hperm := sortByAppliedAt_perm st.apps
    have hall : ∀ a ∈ sortByAppliedAt st.apps, ∃ rs,
        recordRows fields a.id (sel a) = some rs := by
      intro a ha
      by_cases hld : loads (payloadOr (sel a)) = none
      · exact ⟨[], recordRows_decodeFail hld⟩
      · exact h a (hperm.mem_iff.mp ha) hld
    obtain ⟨chunks, hchunks, _⟩ := traverseOption_forall_some hall
    exact ⟨chunks.flatten, by simp [exportSheet, hchunks]⟩
  · intro a _ hld
    exact recordRows_decodeFail hld

/-- A record whose academic payload does not decode at all. -/
def badDecodeApp : Application :=
  { exApp with id := 1, academic_json := "oops" }

/-- Store pairing the undecodable record with a good one. -/
def exStore8b : Store :=
  { users := [hrUser], apps := [badDecodeApp, goodApp], nextUserId := 2, nextAppId := 3,
    now := 20 }

/-- C8 amended, witnessed: the undecodable record contributes zero rows
while the export of the whole store still succeeds. -/
theorem export_decode_failure_degrades_witness :
    (∃ rows, exportSheet acadFields (fun a => a.academic_json) exStore8b = some rows) ∧
    ∀ a ∈ exStore8b.apps, loads (payloadOr a.academic_json) = none →
      recordRows acadFields a.id a.academic_json = some [] :=
  export_decode_failure_degrades acadFields (fun a => a.academic_json) exStore8b
    (by
      intro a ha hld
      rcases List.mem_cons.mp ha with rfl | ha2
      · exact absurd rfl hld
      rcases List.mem_cons.mp ha2 with rfl | h3
      · exact ⟨_, rfl⟩
      · simp at h3)
